import Mathlib

/-!
# Verification of the virtual-microphone manager (`src/main.py`)

Shallow embedding of the core of `main.py`: the external-command helper
`run_cmd`, the `VirtualMicManager` class (`cleanup_all`, `setup`,
`play_audio_vlc`, `stop_playback`, and the polling accessors), and the
UI progress hook `update_progress`.

External effects (subprocess results, VLC backend calls, exceptions the
backend may raise) are modelled as explicit inputs ("worlds"); each
operation additionally returns the list of external calls it issued, in
order, so that ordering claims can be stated about the trace.
-/

namespace VirtualMic

/-! ## `run_cmd` (main.py lines 13-22)

`subprocess.run` either completes (a return code plus captured stdout and
stderr), times out (`subprocess.TimeoutExpired`), or raises some other
exception.  `run_cmd` catches the latter two. -/

/-- Outcome of the underlying `subprocess.run` call. -/
inductive CmdOutcome where
  | completed (returncode : Int) (stdout stderr : String)
  | timedOut
  | raised (msg : String)
deriving Repr, DecidableEq

/-- Python `s.strip()`: drop whitespace from both ends. -/
def pyStrip (s : String) : String :=
  String.mk
    (((s.data.dropWhile Char.isWhitespace).reverse.dropWhile Char.isWhitespace).reverse)

/-- `run_cmd` from main.py: on completion it returns the return code with
whitespace-stripped stdout/stderr (`result.stdout.strip()`); on
`TimeoutExpired` it returns `(1, "", "Timeout")`; on any other exception
it returns `(1, "", str(e))`. -/
def runCmd (o : CmdOutcome) : Int × String × String :=
  match o with
  | .completed rc out err => (rc, pyStrip out, pyStrip err)
  | .timedOut => (1, "", "Timeout")
  | .raised msg => (1, "", msg)

/-! ## Python string primitives used by the source -/

/-- Python `s.lower()` (the source only feeds it ASCII metadata). -/
def pyLower (s : String) : String :=
  String.mk (s.data.map Char.toLower)

/-- `pat.isPrefixOf`-based scan: does `pat` occur as a contiguous sublist? -/
def subListIn (pat : List Char) : List Char → Bool
  | [] => pat.isEmpty
  | c :: rest => pat.isPrefixOf (c :: rest) || subListIn pat rest

/-- Python `sub in s` on strings: substring containment. -/
def pyIn (sub s : String) : Bool :=
  subListIn sub.data s.data

/-- Python `s.isdigit()` (for ASCII content): nonempty and all digits. -/
def pyIsDigit (s : String) : Bool :=
  !s.data.isEmpty && s.data.all Char.isDigit

/-- Decimal value of a digit string. -/
def digitsToNat (l : List Char) : Nat :=
  l.foldl (fun n c => n * 10 + (c.toNat - 48)) 0

/-- Python `int(s)` for the plain (optionally sign-prefixed) decimal
strings that module IDs can be; `none` models `int()` raising
`ValueError`. -/
def pyInt (s : String) : Option Int :=
  match s.data with
  | '-' :: rest =>
    if !rest.isEmpty && rest.all Char.isDigit then
      some (-(digitsToNat rest : Int))
    else none
  | l =>
    if !l.isEmpty && l.all Char.isDigit then
      some ((digitsToNat l : Int))
    else none

/-! ## The denylist test of `cleanup_all` (main.py lines 57-58) -/

/-- The configured device name (`self.mic_name`). -/
def mic_name : String := "Real4n54n"

/-- The literal keyword list of main.py line 58. -/
def denyKeywords : List String :=
  ["null-sink", "virtual", "mic", "real4n54n", "remap", "loopback"]

/-- `any(keyword in module_info.lower() for keyword in [...])`. -/
def denyMatch (module_info : String) : Bool :=
  denyKeywords.any (fun k => pyIn k (pyLower module_info))

/-- Modelled from the spec's wording for comparison: a case-insensitive
substring match against "null-sink", "virtual", "mic", the device's own
configured name, "remap", "loopback". -/
def specDenyMatch (module_info : String) : Bool :=
  ["null-sink", "virtual", "mic", pyLower mic_name, "remap", "loopback"].any
    (fun k => pyIn k (pyLower module_info))

/-! ## Parsing the `pactl list modules short` output (main.py lines 45-59) -/

/-- Python `out.split('\n')`: split at every newline, keeping empty
pieces. -/
def splitNlAux (cur : List Char) : List Char → List (List Char)
  | [] => [cur.reverse]
  | c :: rest =>
    if c = '\n' then cur.reverse :: splitNlAux [] rest
    else splitNlAux (c :: cur) rest

/-- Python `line.split()` (no separator): split on whitespace runs,
dropping empty pieces. -/
def pyWordsAux (cur : List Char) : List Char → List (List Char)
  | [] => if cur.isEmpty then [] else [cur.reverse]
  | c :: rest =>
    if c.isWhitespace then
      if cur.isEmpty then pyWordsAux [] rest
      else cur.reverse :: pyWordsAux [] rest
    else pyWordsAux (c :: cur) rest

/-- Python `' '.join(ws)`. -/
def joinWords : List (List Char) → List Char
  | [] => []
  | [w] => w
  | w :: rest => w ++ ' ' :: joinWords rest

/-- One iteration of the parsing loop: skip lines that are blank after
stripping, `line.split()`, require at least two fields, take `parts[0]`
as the ID and `' '.join(parts[1:])` as the info. -/
def parseModuleLine (line : List Char) : Option (String × String) :=
  if line.all Char.isWhitespace then none
  else
    match pyWordsAux [] line with
    | mid :: info :: rest => some (String.mk mid, String.mk (joinWords (info :: rest)))
    | _ => none

/-- All `(module_id, module_info)` pairs parsed from `out.split('\n')`. -/
def parseModules (out : String) : List (String × String) :=
  (splitNlAux [] out.data).filterMap parseModuleLine

/-- `modules_to_remove`: the parsed modules whose info matches the denylist. -/
def modulesToRemove (out : String) : List (String × String) :=
  (parseModules out).filter (fun m => denyMatch m.2)

/-- Pair each module in the list with `int(module_id)`; `none` models the
`ValueError` that `sorted`'s key function would raise on a non-numeric
ID. -/
def decorateIds : List (String × String) → Option (List ((String × String) × Int))
  | [] => some []
  | m :: rest =>
    match pyInt m.1, decorateIds rest with
    | some k, some ks => some ((m, k) :: ks)
    | _, _ => none

/-- The matched modules, each paired with its numeric ID. -/
def keyedModules (out : String) : Option (List ((String × String) × Int)) :=
  decorateIds (modulesToRemove out)

/-- `sorted(..., key=lambda x: int(x[0]), reverse=True)`: a stable sort,
descending by numeric ID. -/
def sortDescById (l : List ((String × String) × Int)) :
    List ((String × String) × Int) :=
  List.insertionSort (fun a b => b.2 ≤ a.2) l

/-! ## `VirtualMicManager` state (main.py lines 27-31)

Besides the three fields the Python object holds, the model tracks as
instrumentation the set of backend player handles that were created by
`media_player_new` and not yet freed by `release()` (`livePlayers`), and
a counter from which fresh handles are drawn (`nextHandle`). -/

/-- The mutable state of a `VirtualMicManager` instance. -/
structure MState where
  vlc_instance : Option Nat
  vlc_player : Option Nat
  current_process : Option Nat
  livePlayers : List Nat
  nextHandle : Nat
deriving Repr, DecidableEq

/-- `__init__`: no instance, no player, no process. -/
def initState : MState :=
  { vlc_instance := none, vlc_player := none, current_process := none,
    livePlayers := [], nextHandle := 0 }

/-- External calls the manager issues; each operation returns the list of
calls it completed, in order. -/
inductive Ev where
  | vlcStop (h : Nat)
  | vlcRelease (h : Nat)
  | procTerminate
  | procKill
  | listModules
  | unloadModule (id : String)
  | loadModule
  | setDefaultSource (name : String)
  | listSources
  | newInstance
  | newPlayer (h : Nat)
  | outputSet (h : Nat) (backend : String)
  | deviceSet (h : Nat) (dev : String)
  | mediaNew (path : String)
  | mediaSet (h : Nat)
  | playCall (h : Nat)
  | sleepMs (ms : Nat)
deriving Repr, DecidableEq

/-- Events issued by `stop_playback` (backend stop / resource release /
process termination). -/
def Ev.isStopEv : Ev → Bool
  | .vlcStop _ => true
  | .vlcRelease _ => true
  | .procTerminate => true
  | .procKill => true
  | _ => false

/-- A `pactl unload-module` call. -/
def Ev.isUnload : Ev → Bool
  | .unloadModule _ => true
  | _ => false

/-- The `pactl load-module` creation call. -/
def Ev.isLoad : Ev → Bool
  | .loadModule => true
  | _ => false

/-- A `pactl set-default-source` call. -/
def Ev.isSetDef : Ev → Bool
  | .setDefaultSource _ => true
  | _ => false

/-- The module IDs passed to `pactl unload-module`, in call order. -/
def unloadIdsOf (evs : List Ev) : List String :=
  evs.filterMap (fun e =>
    match e with
    | Ev.unloadModule id => some id
    | _ => none)

/-! ## `stop_playback` (main.py lines 141-162) -/

/-- Which backend calls raise during `stop_playback`; every such
exception is caught by the bare `except:` clauses. -/
structure StopWorld where
  stopRaises : Bool
  releaseRaises : Bool
  termRaises : Bool
  waitRaises : Bool
deriving Repr, DecidableEq

/-- A `StopWorld` in which `stop()` and `release()` succeed, so the old
player's resources are actually freed. -/
def StopWorld.clean (w : StopWorld) : Prop :=
  w.stopRaises = false ∧ w.releaseRaises = false

instance (w : StopWorld) : Decidable w.clean := by
  unfold StopWorld.clean; infer_instance

/-- `stop_playback`: if a player handle is held, `stop()` then
`release()` it inside `try/except: pass`, then set it to `None`
(unconditionally — also when a call raised); likewise terminate a
`current_process` if one is held.  A handle leaves `livePlayers` only
when `release()` completes. -/
def stop_playback (s : MState) (w : StopWorld) : MState × List Ev :=
  let vlcStep : MState × List Ev :=
    match s.vlc_player with
    | none => (s, [])
    | some h =>
      if w.stopRaises then
        ({ s with vlc_player := none }, [])
      else if w.releaseRaises then
        ({ s with vlc_player := none }, [Ev.vlcStop h])
      else
        ({ s with vlc_player := none, livePlayers := s.livePlayers.erase h },
         [Ev.vlcStop h, Ev.vlcRelease h])
  let s1 := vlcStep.1
  let procStep : MState × List Ev :=
    match s1.current_process with
    | none => (s1, [])
    | some _ =>
      if w.termRaises then
        ({ s1 with current_process := none }, [Ev.procKill])
      else if w.waitRaises then
        ({ s1 with current_process := none }, [Ev.procTerminate, Ev.procKill])
      else
        ({ s1 with current_process := none }, [Ev.procTerminate])
  (procStep.1, vlcStep.2 ++ procStep.2)

/-! ## `play_audio_vlc` (main.py lines 108-139)

The `try:` block performs, in order: (1) `vlc.Instance(...)` if no
instance exists yet, (2) `media_player_new()`, (3) `audio_output_set`,
(4) `audio_output_device_set`, (5) `media_new`, (6) `set_media`,
(7) `play()`.  `raiseStep = some k` says the step-`k` call raises if it
is executed; the `except Exception` handler turns that into
`(False, "VLC error: ...")`.  The trace records completed calls. -/

/-- World for one `play_audio_vlc` call. -/
structure PlayWorld where
  pathExists : Bool
  stopW : StopWorld
  raiseStep : Option Nat
  raiseMsg : String
  playRc : Int
deriving Repr, DecidableEq

/-- The `try:` block of `play_audio_vlc`, acting on the state left by
the unconditional `stop_playback` call.  Returns the new state, the
`(success, message)` pair, and the trace of completed backend calls. -/
def play_try_body (s1 : MState) (audio_path : String) (w : PlayWorld) :
    MState × (Bool × String) × List Ev :=
  let vlcErr := (false, "VLC error: " ++ w.raiseMsg)
  -- step 1: `vlc.Instance` only when `self.vlc_instance` is falsy
  if s1.vlc_instance = none ∧ w.raiseStep = some 1 then
    (s1, vlcErr, [])
  else
    let instStep : MState × List Ev :=
      match s1.vlc_instance with
      | none =>
        ({ s1 with vlc_instance := some s1.nextHandle,
                   nextHandle := s1.nextHandle + 1 }, [Ev.newInstance])
      | some _ => (s1, [])
    let s2 := instStep.1
    let evs1 := instStep.2
    -- step 2: `media_player_new`
    if w.raiseStep = some 2 then
      (s2, vlcErr, evs1)
    else
      let h := s2.nextHandle
      let s3 := { s2 with vlc_player := some h,
                          livePlayers := s2.livePlayers ++ [h],
                          nextHandle := h + 1 }
      let evs2 := evs1 ++ [Ev.newPlayer h]
      -- step 3: `audio_output_set("pulse")`
      if w.raiseStep = some 3 then
        (s3, vlcErr, evs2)
      else
        let evs3 := evs2 ++ [Ev.outputSet h "pulse"]
        -- step 4: `audio_output_device_set(None, self.mic_name)`
        if w.raiseStep = some 4 then
          (s3, vlcErr, evs3)
        else
          let evs4 := evs3 ++ [Ev.deviceSet h mic_name]
          -- step 5: `media_new(audio_path)`
          if w.raiseStep = some 5 then
            (s3, vlcErr, evs4)
          else
            let evs5 := evs4 ++ [Ev.mediaNew audio_path]
            -- step 6: `set_media(media)`
            if w.raiseStep = some 6 then
              (s3, vlcErr, evs5)
            else
              let evs6 := evs5 ++ [Ev.mediaSet h]
              -- step 7: `play()`
              if w.raiseStep = some 7 then
                (s3, vlcErr, evs6)
              else
                let evs7 := evs6 ++ [Ev.playCall h]
                if w.playRc = -1 then
                  (s3, (false, "Failed to play audio with VLC"), evs7)
                else
                  (s3, (true, "Sending audio"), evs7)

/-- `play_audio_vlc`: fail on a missing path, otherwise stop any
existing playback and run the `try:` block on the stopped state; the
call trace is the stop trace followed by the body trace. -/
def play_audio_vlc (s : MState) (audio_path : String) (w : PlayWorld) :
    MState × (Bool × String) × List Ev :=
  if !w.pathExists then
    (s, (false, "File not found"), [])
  else
    let stopped := stop_playback s w.stopW
    let body := play_try_body stopped.1 audio_path w
    (body.1, body.2.1, stopped.2 ++ body.2.2)

/-- Run a sequence of `play_audio_vlc` calls, threading the state. -/
def runPlays (s : MState) : List (String × PlayWorld) → MState × List Ev
  | [] => (s, [])
  | (p, w) :: rest =>
    let r := play_audio_vlc s p w
    let r2 := runPlays r.1 rest
    (r2.1, r.2.2 ++ r2.2)

/-! ## `cleanup_all` (main.py lines 33-68) -/

/-- World for one `cleanup_all` call: the outcome of the
`pactl list modules short` subprocess, the per-module outcomes of the
`pactl unload-module` subprocesses, and the stop-playback world. -/
structure CleanupWorld where
  stopW : StopWorld
  listRes : CmdOutcome
  unloadRes : String → CmdOutcome

/-- The trace of one unload iteration: issue
`pactl unload-module module_id` (its result is discarded by the source),
then `time.sleep(0.1)`. -/
def unloadStep (w : CleanupWorld) (m : (String × String) × Int) : List Ev :=
  let _ignored := runCmd (w.unloadRes m.1.1)
  [Ev.unloadModule m.1.1, Ev.sleepMs 100]

/-- `cleanup_all`: stop playback, list modules; when the listing command
succeeded, unload every denylist-matching module in descending numeric
ID order (best effort — each unload's result is ignored); finally
`time.sleep(2)`.  `none` models the uncaught `ValueError` from
`int(module_id)` on a matched module whose ID is not numeric. -/
def cleanup_all (s : MState) (w : CleanupWorld) : Option (MState × List Ev) :=
  let stopped := stop_playback s w.stopW
  let s1 := stopped.1
  let listed := runCmd w.listRes
  let rc := listed.1
  let out := listed.2.1
  if rc = 0 then
    match keyedModules out with
    | none => none
    | some keyed =>
      let unloadEvs := (sortDescById keyed).flatMap (unloadStep w)
      some (s1, stopped.2 ++ [Ev.listModules] ++ unloadEvs ++ [Ev.sleepMs 2000])
  else
    some (s1, stopped.2 ++ [Ev.listModules] ++ [Ev.sleepMs 2000])

/-! ## `setup` (main.py lines 70-106) -/

/-- World for one `setup` call: a cleanup world plus the outcomes of the
`load-module`, `set-default-source` and `list sources short`
subprocesses. -/
structure SetupWorld where
  cw : CleanupWorld
  loadRes : CmdOutcome
  setDefRes : CmdOutcome
  srcRes : CmdOutcome

/-- The monitor source name, `f"{self.mic_name}.monitor"`. -/
def monitor_name : String := mic_name ++ ".monitor"

/-- `setup`: `cleanup_all`, `time.sleep(2)`, issue the `load-module`
creation call; fail if its status is non-zero or its stdout is not all
digits.  Otherwise set the monitor as default source (result ignored),
`time.sleep(2)`, list sources, and succeed iff `monitor_name` occurs in
the listing's stdout.  Returns the `(success, message)` pair and the
trace; `none` propagates the `cleanup_all` crash. -/
def setup (s : MState) (w : SetupWorld) :
    Option (MState × (Bool × String) × List Ev) :=
  match cleanup_all s w.cw with
  | none => none
  | some cleaned =>
    let s1 := cleaned.1
    let evs1 := cleaned.2 ++ [Ev.sleepMs 2000]
    let loaded := runCmd w.loadRes
    let rc := loaded.1
    let out := loaded.2.1
    let err := loaded.2.2
    let evs2 := evs1 ++ [Ev.loadModule]
    if rc ≠ 0 ∨ pyIsDigit out = false then
      some (s1, (false, "Failed to create virtual microphone: " ++ err), evs2)
    else
      let _ignored := runCmd w.setDefRes
      let evs3 := evs2 ++ [Ev.setDefaultSource monitor_name] ++ [Ev.sleepMs 2000]
      let sources := (runCmd w.srcRes).2.1
      let evs4 := evs3 ++ [Ev.listSources]
      if pyIn monitor_name sources then
        some (s1, (true, "Virtual Microphone Created '" ++ mic_name ++ "'"), evs4)
      else
        some (s1, (false, "Failed to create virtual microphone"), evs4)

/-! ## Polling accessors (main.py lines 164-180) and the UI progress
hook `update_progress` (main.py lines 845-853) -/

/-- `get_playback_time`: the backend's `get_time()` when a player is
held, else 0. -/
def get_playback_time (s : MState) (backendTime : Int) : Int :=
  match s.vlc_player with
  | some _ => backendTime
  | none => 0

/-- `get_media_length`: the backend's `get_length()` when a player is
held, else 0. -/
def get_media_length (s : MState) (backendLength : Int) : Int :=
  match s.vlc_player with
  | some _ => backendLength
  | none => 0

/-- `is_playing`: the backend's `is_playing()` when a player is held,
else `False`. -/
def is_playing (s : MState) (backendPlaying : Bool) : Bool :=
  match s.vlc_player with
  | some _ => backendPlaying
  | none => false

/-- `update_progress`: when both the UI flag `self.is_playing` and
`self.mic.is_playing()` hold, read time and length; only when
`total_time > 0` compute `int((current_time / total_time) * 100)` and
report it to the progress bar.  Returns the reported value, `none` when
nothing is reported.  The real-valued division is modelled exactly
(`Int.div` truncates toward zero like Python `int()`). -/
def update_progress (s : MState) (uiPlaying backendPlaying : Bool)
    (backendTime backendLength : Int) : Option Int :=
  if uiPlaying && is_playing s backendPlaying then
    let current_time := get_playback_time s backendTime
    let total_time := get_media_length s backendLength
    if total_time > 0 then
      some (Int.tdiv (current_time * 100) total_time)
    else
      none
  else
    none

/-! ## Instrumentation predicates and concrete fixtures -/

/-- The per-process exclusivity invariant: the live backend player
handles are exactly the one held in `vlc_player` (if any), and every
held handle was drawn from the fresh-handle counter. -/
def playerInv (s : MState) : Prop :=
  s.livePlayers = s.vlc_player.toList ∧
  ∀ h, s.vlc_player = some h → h < s.nextHandle

instance : IsTotal ((String × String) × Int) (fun a b => b.2 ≤ a.2) :=
  ⟨fun a b => le_total b.2 a.2⟩

instance : IsTrans ((String × String) × Int) (fun a b => b.2 ≤ a.2) :=
  ⟨fun _ _ _ h1 h2 => le_trans h2 h1⟩

/-- A stop world where no backend call raises. -/
def noRaise : StopWorld :=
  { stopRaises := false, releaseRaises := false,
    termRaises := false, waitRaises := false }

/-- A play call whose path exists and whose backend calls all succeed. -/
def wOk : PlayWorld :=
  { pathExists := true, stopW := noRaise, raiseStep := none,
    raiseMsg := "", playRc := 0 }

/-- A play call whose path exists but whose `play()` returns `-1`. -/
def wFail : PlayWorld :=
  { wOk with playRc := -1 }

/-- A manager state that holds a live player handle. -/
def sHeld : MState :=
  { initState with vlc_player := some 5, livePlayers := [5], nextHandle := 6 }

/-- A cleanup world whose module listing contains two matching modules
(IDs 3 and 10) and one non-matching one. -/
def cwWit : CleanupWorld :=
  { stopW := noRaise,
    listRes := .completed 0
      "3 module-null-sink sink_name=x\n7 module-alsa-card a\n10 module-loopback y" "",
    unloadRes := fun _ => .completed 0 "" "" }

/-- The trace produced by `cleanup_all sHeld cwWit`. -/
def cwWitEvs : List Ev :=
  [Ev.vlcStop 5, Ev.vlcRelease 5, Ev.listModules,
   Ev.unloadModule "10", Ev.sleepMs 100, Ev.unloadModule "3", Ev.sleepMs 100,
   Ev.sleepMs 2000]

/-- A setup world where everything succeeds and the monitor is visible. -/
def swOk : SetupWorld :=
  { cw := cwWit,
    loadRes := .completed 0 "42" "",
    setDefRes := .completed 0 "" "",
    srcRes := .completed 0 "55 Real4n54n.monitor module-null-sink.c" "" }

/-- A setup world whose creation call exits 0 but prints non-numeric
output. -/
def swBadOut : SetupWorld :=
  { swOk with loadRes := .completed 0 "Failure: not loaded" "" }

/-- A setup world where creation succeeds but the monitor source never
shows up in the source listing. -/
def swNoMonitor : SetupWorld :=
  { swOk with srcRes := .completed 0 "55 other-source module.c" "" }

/-- The trace produced by `setup sHeld swOk` (and by `setup sHeld
swNoMonitor`, which differs only in the listing's content). -/
def swOkEvs : List Ev :=
  [Ev.vlcStop 5, Ev.vlcRelease 5, Ev.listModules,
   Ev.unloadModule "10", Ev.sleepMs 100, Ev.unloadModule "3", Ev.sleepMs 100,
   Ev.sleepMs 2000, Ev.sleepMs 2000, Ev.loadModule,
   Ev.setDefaultSource "Real4n54n.monitor", Ev.sleepMs 2000, Ev.listSources]

/-- The trace produced by `setup sHeld swBadOut`: it stops right after
the failed creation call. -/
def swBadEvs : List Ev :=
  [Ev.vlcStop 5, Ev.vlcRelease 5, Ev.listModules,
   Ev.unloadModule "10", Ev.sleepMs 100, Ev.unloadModule "3", Ev.sleepMs 100,
   Ev.sleepMs 2000, Ev.sleepMs 2000, Ev.loadModule]

/-! # Theorems -/

/-- C10: `run_cmd` is total — for every subprocess outcome it returns a
`(returncode, stdout, stderr)` triple rather than propagating an
exception: a timeout yields `(1, "", "Timeout")`, any other exception
yields `(1, "", message)`, and a completed process yields its exit code
with whitespace-stripped stdout and stderr. -/
theorem runCmd_total :
    (∀ rc out err, runCmd (.completed rc out err) = (rc, pyStrip out, pyStrip err)) ∧
    runCmd .timedOut = (1, "", "Timeout") ∧
    (∀ msg, runCmd (.raised msg) = (1, "", msg)) :=
  ⟨fun _ _ _ => rfl, rfl, fun _ => rfl⟩

/-- C6: `play_audio_vlc` on a path that does not reference an existing
file returns the not-found failure and changes nothing: the state
(player handle, instance, live players) is returned untouched and no
backend or routing call is issued. -/
theorem play_missing_file (s : MState) (path : String) (w : PlayWorld)
    (h : w.pathExists = false) :
    play_audio_vlc s path w = (s, (false, "File not found"), []) := by
  unfold play_audio_vlc
  simp [h]

/-- Witness for `play_missing_file`: a concrete call on a state holding
a player. -/
theorem play_missing_file_witness :
    play_audio_vlc sHeld "ghost.wav" { wOk with pathExists := false } =
      (sHeld, (false, "File not found"), []) :=
  play_missing_file sHeld "ghost.wav" { wOk with pathExists := false } rfl

/-- After any `stop_playback` call the player and process handles are
cleared, whatever backend errors occurred. -/
theorem stop_cleared (s : MState) (w : StopWorld) :
    (stop_playback s w).1.vlc_player = none ∧
    (stop_playback s w).1.current_process = none := by
  rcases s with ⟨vi, vp, cp, lp, nh⟩
  cases vp <;> cases cp <;> dsimp only [stop_playback] <;> (try split_ifs) <;> simp

/-- `stop_playback` on a state with no player and no process is a no-op
issuing no backend calls. -/
theorem stop_of_cleared (s : MState) (w : StopWorld)
    (h1 : s.vlc_player = none) (h2 : s.current_process = none) :
    stop_playback s w = (s, []) := by
  simp [stop_playback, h1, h2]

/-- C7: `stop_playback` never fails observably and is idempotent: for
every state and every combination of backend errors (all swallowed by
the bare `except:` clauses) it returns normally with the player handle
and process handle cleared, and an immediately repeated call is a
complete no-op that issues no backend calls. -/
theorem stop_playback_idempotent :
    ∀ (s : MState) (w w2 : StopWorld),
      (stop_playback s w).1.vlc_player = none ∧
      (stop_playback s w).1.current_process = none ∧
      stop_playback (stop_playback s w).1 w2 = ((stop_playback s w).1, []) := by
  intro s w w2
  obtain ⟨h1, h2⟩ := stop_cleared s w
  exact ⟨h1, h2, stop_of_cleared _ w2 h1 h2⟩

/-- C9: the progress fraction is computed, and a progress value
reported, only when the reported media length is strictly positive; a
zero or unknown (≤ 0) length suppresses the computation entirely. -/
theorem update_progress_guard :
    ∀ (s : MState) (up bp : Bool) (t len : Int),
      (get_media_length s len ≤ 0 → update_progress s up bp t len = none) ∧
      (∀ p, update_progress s up bp t len = some p →
        0 < get_media_length s len ∧
        p = Int.tdiv (get_playback_time s t * 100) (get_media_length s len)) := by
  intro s up bp t len
  unfold update_progress
  dsimp only
  constructor
  · intro hle
    split_ifs with h1 h2
    · exact absurd h2 (not_lt.2 hle)
    · rfl
    · rfl
  · intro p hp
    split_ifs at hp with h1 h2
    · exact ⟨h2, (Option.some_inj.1 hp).symm⟩

/-- Witness for `update_progress_guard`: with a held player, UI and
backend both playing, time 500 ms of 1000 ms, the reported value is 50
and the length really was positive. -/
theorem update_progress_guard_witness :
    0 < get_media_length sHeld 1000 ∧
    (50 : Int) = Int.tdiv (get_playback_time sHeld 500 * 100) (get_media_length sHeld 1000) :=
  (update_progress_guard sHeld true true 500 1000).2 50 rfl

/-! ### Trace classification lemmas -/

/-- Every call completed by `stop_playback` is a stop-type call. -/
theorem stop_evs_stop (s : MState) (w : StopWorld) :
    ∀ e ∈ (stop_playback s w).2, e.isStopEv = true := by
  rcases s with ⟨vi, vp, cp, lp, nh⟩
  cases vp <;> cases cp <;> dsimp only [stop_playback] <;> (try split_ifs) <;>
    simp [Ev.isStopEv]

/-- A stop-type call is not an unload, a load, or a default-source
change. -/
theorem stopEv_not_other {e : Ev} (h : e.isStopEv = true) :
    e.isUnload = false ∧ e.isLoad = false ∧ e.isSetDef = false := by
  cases e <;> simp_all [Ev.isStopEv, Ev.isUnload, Ev.isLoad, Ev.isSetDef]

/-- When decorating with `int(module_id)` succeeds, the decorated list
carries exactly the original modules, each paired with its parsed ID. -/
theorem decorateIds_spec :
    ∀ (l : List (String × String)) (ks : List ((String × String) × Int)),
      decorateIds l = some ks →
      ks.map Prod.fst = l ∧ ∀ x ∈ ks, pyInt x.1.1 = some x.2 := by
  intro l
  induction l with
  | nil =>
    intro ks h
    simp only [decorateIds, Option.some_inj] at h
    subst h
    simp
  | cons m rest ih =>
    intro ks h
    simp only [decorateIds] at h
    cases hk : pyInt m.1 <;> rw [hk] at h
    · cases h
    · cases hrest : decorateIds rest <;> rw [hrest] at h
      · cases h
      · simp only [Option.some_inj] at h
        subst h
        obtain ⟨ha, hb⟩ := ih _ hrest
        refine ⟨by simp [ha], ?_⟩
        intro x hx
        rcases List.mem_cons.1 hx with hx | hx
        · subst hx; exact hk
        · exact hb x hx

/-- `unloadIdsOf` distributes over append. -/
theorem unloadIdsOf_append (a b : List Ev) :
    unloadIdsOf (a ++ b) = unloadIdsOf a ++ unloadIdsOf b :=
  List.filterMap_append ..

/-- A trace of stop-type calls contains no unload calls. -/
theorem unloadIdsOf_nil_of_stop (evs : List Ev) (h : ∀ e ∈ evs, e.isStopEv = true) :
    unloadIdsOf evs = [] := by
  refine List.filterMap_eq_nil_iff.2 (fun e he => ?_)
  have := h e he
  cases e <;> simp_all [Ev.isStopEv]

/-- The unload calls of the removal loop are exactly the IDs of the
modules it iterates over, in order. -/
theorem unloadIdsOf_flatMap (w : CleanupWorld) (l : List ((String × String) × Int)) :
    unloadIdsOf (l.flatMap (unloadStep w)) = l.map (fun x => x.1.1) := by
  induction l with
  | nil => rfl
  | cons x rest ih =>
    simp only [List.flatMap_cons, unloadIdsOf_append, ih, unloadStep]
    rfl

/-- Characterization of a completed `cleanup_all` call: the resulting
state is the stopped state, and the trace is the stop trace, the module
listing, the unload loop over the sorted matched modules (when the
listing succeeded), and the final settle sleep. -/
theorem cleanup_all_some (s : MState) (w : CleanupWorld) (s2 : MState) (evs : List Ev)
    (h : cleanup_all s w = some (s2, evs)) :
    s2 = (stop_playback s w.stopW).1 ∧
    ((runCmd w.listRes).1 = 0 →
      ∃ keyed, decorateIds (modulesToRemove (runCmd w.listRes).2.1) = some keyed ∧
        evs = (stop_playback s w.stopW).2 ++ [Ev.listModules] ++
          (sortDescById keyed).flatMap (unloadStep w) ++ [Ev.sleepMs 2000]) ∧
    ((runCmd w.listRes).1 ≠ 0 →
      evs = (stop_playback s w.stopW).2 ++ [Ev.listModules] ++ [Ev.sleepMs 2000]) := by
  unfold cleanup_all at h
  dsimp only at h
  split_ifs at h with h0
  · rcases hk : decorateIds (modulesToRemove (runCmd w.listRes).2.1) with _ | keyed <;>
      rw [show keyedModules (runCmd w.listRes).2.1 =
            decorateIds (modulesToRemove (runCmd w.listRes).2.1) from rfl, hk] at h
    · cases h
    · simp only [Option.some_inj, Prod.mk.injEq] at h
      obtain ⟨hs, hevs⟩ := h
      exact ⟨hs.symm, fun _ => ⟨keyed, rfl, hevs.symm⟩, fun hne => absurd h0 hne⟩
  · simp only [Option.some_inj, Prod.mk.injEq] at h
    obtain ⟨hs, hevs⟩ := h
    exact ⟨hs.symm, fun h0c => absurd h0c h0, fun _ => hevs.symm⟩

/-- The lowercased configured device name is the literal keyword of
main.py line 58. -/
theorem micName_lower : pyLower mic_name = "real4n54n" := by decide

/-- C8: a module is marked for removal iff its metadata passes the
case-insensitive denylist-substring test against "null-sink",
"virtual", "mic", the device's own configured name (lowercased),
"remap", "loopback"; and every unload call a completed `cleanup_all`
issues targets such a matched module, so non-matching modules are never
unloaded. -/
theorem denylist_characterization :
    (∀ info, denyMatch info = specDenyMatch info) ∧
    (∀ out m, m ∈ modulesToRemove out ↔ m ∈ parseModules out ∧ denyMatch m.2 = true) ∧
    (∀ (s : MState) (w : CleanupWorld) (s2 : MState) (evs : List Ev),
      cleanup_all s w = some (s2, evs) →
      ∀ mid, Ev.unloadModule mid ∈ evs →
        ∃ info, (mid, info) ∈ modulesToRemove (runCmd w.listRes).2.1) := by
  refine ⟨?_, fun out m => List.mem_filter, ?_⟩
  · intro info
    simp only [denyMatch, specDenyMatch, denyKeywords, micName_lower]
  · intro s w s2 evs h mid hmem
    obtain ⟨-, h0case, hne⟩ := cleanup_all_some s w s2 evs h
    by_cases h0 : (runCmd w.listRes).1 = 0
    · obtain ⟨keyed, hk, hevs⟩ := h0case h0
      subst hevs
      simp only [List.mem_append, List.mem_singleton] at hmem
      rcases hmem with ((hA | hlm) | hseg) | hsl
      · have := stop_evs_stop s w.stopW _ hA
        simp [Ev.isStopEv] at this
      · exact Ev.noConfusion hlm
      · simp only [List.mem_flatMap, unloadStep] at hseg
        obtain ⟨x, hx, hex⟩ := hseg
        simp only [sortDescById] at hx
        have hxm : x ∈ keyed := (List.mem_insertionSort _).1 hx
        obtain ⟨hmap, hkeys⟩ := decorateIds_spec _ _ hk
        have hx1 : x.1 ∈ modulesToRemove (runCmd w.listRes).2.1 := by
          rw [← hmap]
          exact List.mem_map_of_mem _ hxm
        simp only [List.mem_cons, List.not_mem_nil, or_false] at hex
        rcases hex with hex | hex
        · have hmid := Ev.unloadModule.inj hex
          exact ⟨x.1.2, by rw [hmid]; exact hx1⟩
        · exact Ev.noConfusion hex
      · exact Ev.noConfusion hsl
    · rw [hne h0] at hmem
      simp only [List.mem_append, List.mem_singleton] at hmem
      rcases hmem with (hA | hlm) | hsl
      · have := stop_evs_stop s w.stopW _ hA
        simp [Ev.isStopEv] at this
      · exact Ev.noConfusion hlm
      · exact Ev.noConfusion hsl

/-- Witness for `denylist_characterization`: in the concrete cleanup run
over `cwWit`, module "10" was unloaded and is indeed a matched module. -/
theorem denylist_characterization_witness :
    ∃ info, ("10", info) ∈ modulesToRemove (runCmd cwWit.listRes).2.1 :=
  denylist_characterization.2.2 sHeld cwWit { initState with nextHandle := 6 }
    cwWitEvs (by decide) "10" (by decide)

/-- C2: a completed `cleanup_all` whose module listing succeeded issues
exactly one unload call per denylist-matched module — the unload IDs are
a permutation of the matched IDs, all numeric — and, when the matched
IDs are pairwise distinct, the calls are made in strictly descending
numeric order; the trace does not depend on the outcomes of the
individual unload calls, so one failed unload never suppresses the
rest. -/
theorem cleanup_unload_calls (s : MState) (w : CleanupWorld) (s2 : MState) (evs : List Ev)
    (h : cleanup_all s w = some (s2, evs)) (h0 : (runCmd w.listRes).1 = 0) :
    (unloadIdsOf evs).length = (modulesToRemove (runCmd w.listRes).2.1).length ∧
    (unloadIdsOf evs).Perm ((modulesToRemove (runCmd w.listRes).2.1).map Prod.fst) ∧
    (∀ mid ∈ unloadIdsOf evs, (pyInt mid).isSome = true) ∧
    ((modulesToRemove (runCmd w.listRes).2.1).Pairwise (fun m m2 => pyInt m.1 ≠ pyInt m2.1) →
      (unloadIdsOf evs).Pairwise (fun a b => (pyInt b).getD 0 < (pyInt a).getD 0)) ∧
    (∀ r2 : String → CmdOutcome,
      cleanup_all s { w with unloadRes := r2 } = cleanup_all s w) := by
  obtain ⟨-, h0case, -⟩ := cleanup_all_some s w s2 evs h
  obtain ⟨keyed, hk, hevs⟩ := h0case h0
  obtain ⟨hmap, hkeys⟩ := decorateIds_spec _ _ hk
  subst hevs
  have hids : unloadIdsOf ((stop_playback s w.stopW).2 ++ [Ev.listModules] ++
      (sortDescById keyed).flatMap (unloadStep w) ++ [Ev.sleepMs 2000]) =
      (sortDescById keyed).map (fun x => x.1.1) := by
    simp only [unloadIdsOf_append, unloadIdsOf_flatMap,
      unloadIdsOf_nil_of_stop _ (stop_evs_stop s w.stopW)]
    simp [unloadIdsOf]
  rw [hids]
  have hperm : (sortDescById keyed).Perm keyed := by
    simpa [sortDescById] using List.perm_insertionSort (fun a b => b.2 ≤ a.2) keyed
  have hpermIds : ((sortDescById keyed).map (fun x => x.1.1)).Perm
      ((modulesToRemove (runCmd w.listRes).2.1).map Prod.fst) := by
    have hp2 := hperm.map (fun x => x.1.1)
    rw [show keyed.map (fun x => x.1.1) = (keyed.map Prod.fst).map Prod.fst by simp,
      hmap] at hp2
    exact hp2
  refine ⟨by rw [hpermIds.length_eq, List.length_map], hpermIds, ?_, ?_, fun r2 => rfl⟩
  · intro mid hmid
    simp only [List.mem_map] at hmid
    obtain ⟨x, hx, rfl⟩ := hmid
    rw [hkeys x (hperm.subset hx)]
    rfl
  · intro hnd
    have hndk : keyed.Pairwise (fun a b => a.2 ≠ b.2) := by
      have h1 : (keyed.map Prod.fst).Pairwise (fun m m2 => pyInt m.1 ≠ pyInt m2.1) :=
        hmap ▸ hnd
      refine (List.pairwise_map.1 h1).imp_of_mem ?_
      intro a b ha hb hne heq
      exact hne (by rw [hkeys a ha, hkeys b hb, heq])
    have hsorted : (sortDescById keyed).Pairwise (fun a b => b.2 ≤ a.2) := by
      simpa [sortDescById] using
        List.sorted_insertionSort (fun a b => b.2 ≤ a.2) keyed
    have hnds : (sortDescById keyed).Pairwise (fun a b => a.2 ≠ b.2) :=
      (List.Perm.pairwise_iff (fun hxy => hxy.symm) hperm).2 hndk
    have hstrict : (sortDescById keyed).Pairwise (fun a b => b.2 < a.2) :=
      (hsorted.and hnds).imp (fun hab => lt_of_le_of_ne hab.1 hab.2.symm)
    refine List.pairwise_map.2 (hstrict.imp_of_mem ?_)
    intro a b ha hb hlt
    rw [hkeys a (hperm.subset ha), hkeys b (hperm.subset hb)]
    simpa using hlt

/-- Witness for `cleanup_unload_calls`: the concrete cleanup over
`cwWit` issues its two unload calls ("10" then "3") in strictly
descending numeric order. -/
theorem cleanup_unload_calls_witness :
    (unloadIdsOf cwWitEvs).length = (modulesToRemove (runCmd cwWit.listRes).2.1).length ∧
    (unloadIdsOf cwWitEvs).Pairwise (fun a b => (pyInt b).getD 0 < (pyInt a).getD 0) := by
  have h := cleanup_unload_calls sHeld cwWit { initState with nextHandle := 6 }
    cwWitEvs (by decide) (by decide)
  exact ⟨h.1, h.2.2.2.1 (by decide)⟩

/-! ### Trace-ordering machinery -/

/-- In a split list whose right part has no `P`-elements and whose left
part has no `Q`-elements, every `P`-position precedes every
`Q`-position. -/
theorem getElem?_split {α : Type} {P Q : α → Prop} {A B : List α}
    (hA : ∀ e ∈ B, ¬ P e) (hB : ∀ e ∈ A, ¬ Q e) :
    ∀ (i j : Nat) (ei ej : α), (A ++ B)[i]? = some ei → (A ++ B)[j]? = some ej →
      P ei → Q ej → i < j := by
  intro i j ei ej hi hj hP hQ
  have hiA : i < A.length := by
    by_contra hge
    push_neg at hge
    rw [List.getElem?_append_right hge] at hi
    exact hA ei (List.getElem?_mem hi) hP
  have hjB : A.length ≤ j := by
    by_contra hlt
    push_neg at hlt
    rw [List.getElem?_append_left hlt] at hj
    exact hB ej (List.getElem?_mem hj) hQ
  omega

/-- The trace of a completed `cleanup_all` is its stop-playback trace
followed by listing, unload and sleep calls only. -/
theorem cleanup_evs_split (s : MState) (w : CleanupWorld) (s2 : MState) (cevs : List Ev)
    (h : cleanup_all s w = some (s2, cevs)) :
    ∃ B, cevs = (stop_playback s w.stopW).2 ++ B ∧
      ∀ e ∈ B, e.isStopEv = false ∧ e.isLoad = false ∧ e.isSetDef = false := by
  obtain ⟨-, h0case, hne⟩ := cleanup_all_some s w s2 cevs h
  by_cases h0 : (runCmd w.listRes).1 = 0
  · obtain ⟨keyed, hk, hevs⟩ := h0case h0
    refine ⟨[Ev.listModules] ++ (sortDescById keyed).flatMap (unloadStep w) ++
      [Ev.sleepMs 2000], ?_, ?_⟩
    · rw [hevs]; simp [List.append_assoc]
    · intro e he
      simp only [List.mem_append, List.mem_singleton, List.mem_flatMap, unloadStep] at he
      rcases he with (he | ⟨x, hx, hex⟩) | he
      · subst he; exact ⟨rfl, rfl, rfl⟩
      · simp only [List.mem_cons, List.not_mem_nil, or_false] at hex
        rcases hex with hex | hex <;> subst hex <;> exact ⟨rfl, rfl, rfl⟩
      · subst he; exact ⟨rfl, rfl, rfl⟩
  · refine ⟨[Ev.listModules] ++ [Ev.sleepMs 2000], ?_, ?_⟩
    · rw [hne h0]; simp [List.append_assoc]
    · intro e he
      simp only [List.mem_append, List.mem_singleton] at he
      rcases he with he | he <;> subst he <;> exact ⟨rfl, rfl, rfl⟩

/-- Characterization of a completed `setup` call: `cleanup_all` ran
first on the same state, and the call either failed at the creation
check (non-zero status or non-digit stdout) with a trace ending at the
creation call, or passed it and went on to set the default source,
sleep, list sources, and decide success by monitor visibility. -/
theorem setup_some (s : MState) (w : SetupWorld) (s2 : MState) (res : Bool × String)
    (evs : List Ev) (h : setup s w = some (s2, res, evs)) :
    ∃ cevs, cleanup_all s w.cw = some (s2, cevs) ∧
      ((((runCmd w.loadRes).1 ≠ 0 ∨ pyIsDigit (runCmd w.loadRes).2.1 = false) ∧
         res = (false, "Failed to create virtual microphone: " ++ (runCmd w.loadRes).2.2) ∧
         evs = cevs ++ [Ev.sleepMs 2000] ++ [Ev.loadModule]) ∨
       ((runCmd w.loadRes).1 = 0 ∧ pyIsDigit (runCmd w.loadRes).2.1 = true ∧
         evs = cevs ++ [Ev.sleepMs 2000] ++ [Ev.loadModule] ++
           [Ev.setDefaultSource monitor_name] ++ [Ev.sleepMs 2000] ++ [Ev.listSources] ∧
         ((pyIn monitor_name (runCmd w.srcRes).2.1 = true ∧
            res = (true, "Virtual Microphone Created '" ++ mic_name ++ "'")) ∨
          (pyIn monitor_name (runCmd w.srcRes).2.1 = false ∧
            res = (false, "Failed to create virtual microphone"))))) := by
  unfold setup at h
  rcases hc : cleanup_all s w.cw with _ | cleaned <;> rw [hc] at h
  · cases h
  · rcases cleaned with ⟨s1, cevs⟩
    dsimp only at h
    split_ifs at h with h1 h2 <;>
      simp only [Option.some_inj, Prod.mk.injEq] at h <;>
      obtain ⟨hs, hres, hevs⟩ := h
    · exact ⟨cevs, hs ▸ rfl, Or.inl ⟨h1, hres.symm, hevs.symm⟩⟩
    · push_neg at h1
      exact ⟨cevs, hs ▸ rfl,
        Or.inr ⟨h1.1, by simpa using h1.2, hevs.symm, Or.inl ⟨h2, hres.symm⟩⟩⟩
    · push_neg at h1
      exact ⟨cevs, hs ▸ rfl,
        Or.inr ⟨h1.1, by simpa using h1.2, hevs.symm,
          Or.inr ⟨by simpa using h2, hres.symm⟩⟩⟩

/-- The trace of a completed `setup` splits into the stop-playback
trace, a middle segment without stop/load/set-default calls, the single
creation call, and a tail without stop/unload/load calls. -/
theorem setup_evs_split (s : MState) (w : SetupWorld) (s2 : MState) (res : Bool × String)
    (evs : List Ev) (h : setup s w = some (s2, res, evs)) :
    ∃ B tail, evs = (stop_playback s w.cw.stopW).2 ++ B ++ (Ev.loadModule :: tail) ∧
      (∀ e ∈ B, e.isStopEv = false ∧ e.isLoad = false ∧ e.isSetDef = false) ∧
      (∀ e ∈ tail, e.isStopEv = false ∧ e.isUnload = false ∧ e.isLoad = false) := by
  obtain ⟨cevs, hc, hcase⟩ := setup_some s w s2 res evs h
  obtain ⟨B0, hB0e, hB0⟩ := cleanup_evs_split s w.cw s2 cevs hc
  have hBfacts : ∀ e ∈ B0 ++ [Ev.sleepMs 2000],
      e.isStopEv = false ∧ e.isLoad = false ∧ e.isSetDef = false := by
    intro e he
    rcases List.mem_append.1 he with he | he
    · exact hB0 e he
    · rcases List.mem_singleton.1 he with rfl
      exact ⟨rfl, rfl, rfl⟩
  rcases hcase with ⟨hcond, hres, hevs⟩ | ⟨hrc, hdig, hevs, hver⟩
  · refine ⟨B0 ++ [Ev.sleepMs 2000], [], ?_, hBfacts, by simp⟩
    rw [hevs, hB0e]
    simp
  · refine ⟨B0 ++ [Ev.sleepMs 2000],
      [Ev.setDefaultSource monitor_name, Ev.sleepMs 2000, Ev.listSources], ?_, hBfacts, ?_⟩
    · rw [hevs, hB0e]
      simp
    · intro e he
      rcases List.mem_cons.1 he with rfl | he
      · exact ⟨rfl, rfl, rfl⟩
      · rcases List.mem_cons.1 he with rfl | he
        · exact ⟨rfl, rfl, rfl⟩
        · rcases List.mem_singleton.1 he with rfl
          exact ⟨rfl, rfl, rfl⟩

/-- C3: in the call trace of any completed `setup`, every stop-playback
call precedes every `unload-module` call, and both precede the single
`load-module` creation call: the full teardown (with its playback stop)
always happens before the device-creation request. -/
theorem setup_stop_unload_load_order (s : MState) (w : SetupWorld) (s2 : MState)
    (res : Bool × String) (evs : List Ev) (h : setup s w = some (s2, res, evs)) :
    ∀ (i j : Nat) (ei ej : Ev), evs[i]? = some ei → evs[j]? = some ej →
      (ei.isStopEv = true → ej.isUnload = true → i < j) ∧
      (ei.isUnload = true → ej.isLoad = true → i < j) ∧
      (ei.isStopEv = true → ej.isLoad = true → i < j) := by
  obtain ⟨B, tail, hevs, hB, htail⟩ := setup_evs_split s w s2 res evs h
  subst hevs
  intro i j ei ej hi hj
  have hstops := stop_evs_stop s w.cw.stopW
  have hAB1 : ∀ e ∈ B ++ (Ev.loadModule :: tail), ¬ e.isStopEv = true := by
    intro e he
    rcases List.mem_append.1 he with he | he
    · simp [(hB e he).1]
    · rcases List.mem_cons.1 he with rfl | he
      · simp [Ev.isStopEv]
      · simp [(htail e he).1]
  have hAB2 : ∀ e ∈ (stop_playback s w.cw.stopW).2, ¬ e.isUnload = true := by
    intro e he
    simp [(stopEv_not_other (hstops e he)).1]
  have hCD1 : ∀ e ∈ Ev.loadModule :: tail, ¬ e.isUnload = true := by
    intro e he
    rcases List.mem_cons.1 he with rfl | he
    · simp [Ev.isUnload]
    · simp [(htail e he).2.1]
  have hCD1s : ∀ e ∈ Ev.loadModule :: tail, ¬ e.isStopEv = true := by
    intro e he
    rcases List.mem_cons.1 he with rfl | he
    · simp [Ev.isStopEv]
    · simp [(htail e he).1]
  have hCD2 : ∀ e ∈ (stop_playback s w.cw.stopW).2 ++ B, ¬ e.isLoad = true := by
    intro e he
    rcases List.mem_append.1 he with he | he
    · simp [(stopEv_not_other (hstops e he)).2.1]
    · simp [(hB e he).2.1]
  refine ⟨?_, ?_, ?_⟩
  · intro hP hQ
    exact getElem?_split (P := fun e => e.isStopEv = true) (Q := fun e => e.isUnload = true)
      (A := (stop_playback s w.cw.stopW).2) (B := B ++ (Ev.loadModule :: tail))
      hAB1 hAB2 i j ei ej (by simpa [List.append_assoc] using hi)
      (by simpa [List.append_assoc] using hj) hP hQ
  · intro hP hQ
    exact getElem?_split (P := fun e => e.isUnload = true) (Q := fun e => e.isLoad = true)
      (A := (stop_playback s w.cw.stopW).2 ++ B) (B := Ev.loadModule :: tail)
      hCD1 hCD2 i j ei ej hi hj hP hQ
  · intro hP hQ
    exact getElem?_split (P := fun e => e.isStopEv = true) (Q := fun e => e.isLoad = true)
      (A := (stop_playback s w.cw.stopW).2 ++ B) (B := Ev.loadModule :: tail)
      hCD1s hCD2 i j ei ej hi hj hP hQ

/-- Witness for `setup_stop_unload_load_order`: in the concrete
successful setup over `swOk`, the stop call (index 0) precedes the
unload call (index 3), which precedes the creation call (index 9). -/
theorem setup_stop_unload_load_order_witness :
    swOkEvs[0]? = some (Ev.vlcStop 5) ∧ swOkEvs[3]? = some (Ev.unloadModule "10") ∧
    swOkEvs[9]? = some Ev.loadModule ∧
    (0 : Nat) < 3 ∧ (3 : Nat) < 9 ∧ (0 : Nat) < 9 := by
  have h := setup_stop_unload_load_order sHeld swOk { initState with nextHandle := 6 }
    (true, "Virtual Microphone Created 'Real4n54n'") swOkEvs (by decide)
  refine ⟨by decide, by decide, by decide,
    (h 0 3 (Ev.vlcStop 5) (Ev.unloadModule "10") (by decide) (by decide)).1 rfl rfl,
    (h 3 9 (Ev.unloadModule "10") Ev.loadModule (by decide) (by decide)).2.1 rfl rfl,
    (h 0 9 (Ev.vlcStop 5) Ev.loadModule (by decide) (by decide)).2.2 rfl rfl⟩

/-- C4: a completed `setup` fails at the creation step exactly when the
creation call's status is non-zero or its stdout is not all digits: in
that case it returns failure with the creation message and never issues
the set-default-source call (zero status with non-numeric output is a
failure, not "device 0"); otherwise it proceeds toward success, issuing
the set-default-source call. -/
theorem setup_creation_gate (s : MState) (w : SetupWorld) (s2 : MState) (ok : Bool)
    (msg : String) (evs : List Ev) (h : setup s w = some (s2, (ok, msg), evs)) :
    ((runCmd w.loadRes).1 ≠ 0 ∨ pyIsDigit (runCmd w.loadRes).2.1 = false →
      ok = false ∧
      msg = "Failed to create virtual microphone: " ++ (runCmd w.loadRes).2.2 ∧
      ∀ e ∈ evs, e.isSetDef = false) ∧
    ((runCmd w.loadRes).1 = 0 ∧ pyIsDigit (runCmd w.loadRes).2.1 = true →
      Ev.setDefaultSource monitor_name ∈ evs) := by
  obtain ⟨cevs, hc, hcase⟩ := setup_some s w s2 (ok, msg) evs h
  obtain ⟨B0, hB0e, hB0⟩ := cleanup_evs_split s w.cw s2 cevs hc
  have hstops := stop_evs_stop s w.cw.stopW
  rcases hcase with ⟨hcond, hres, hevs⟩ | ⟨hrc, hdig, hevs, hver⟩
  · obtain ⟨hok, hmsg⟩ := Prod.mk.inj hres
    refine ⟨fun _ => ⟨hok, hmsg, ?_⟩, fun hcond2 => ?_⟩
    · subst hevs
      intro e he
      rcases List.mem_append.1 he with he | he
      · rcases List.mem_append.1 he with he | he
        · rw [hB0e] at he
          rcases List.mem_append.1 he with he | he
          · exact (stopEv_not_other (hstops e he)).2.2
          · exact (hB0 e he).2.2
        · rcases List.mem_singleton.1 he with rfl
          rfl
      · rcases List.mem_singleton.1 he with rfl
        rfl
    · rcases hcond with hc1 | hc1
      · exact absurd hcond2.1 hc1
      · rw [hcond2.2] at hc1
        cases hc1
  · refine ⟨fun hcond => ?_, fun _ => ?_⟩
    · rcases hcond with hc1 | hc1
      · exact absurd hrc hc1
      · rw [hdig] at hc1
        cases hc1
    · subst hevs
      simp

/-- Witness for `setup_creation_gate`: the setup over `swBadOut` (exit
status 0 but non-numeric stdout) fails with the creation message and
issues no set-default-source call. -/
theorem setup_creation_gate_witness :
    false = false ∧
    "Failed to create virtual microphone: " =
      "Failed to create virtual microphone: " ++ (runCmd swBadOut.loadRes).2.2 ∧
    ∀ e ∈ swBadEvs, e.isSetDef = false := by
  have h := setup_creation_gate sHeld swBadOut { initState with nextHandle := 6 }
    false "Failed to create virtual microphone: " swBadEvs (by decide)
  exact h.1 (Or.inr (by decide))

/-- C5: after a successful creation call (zero status, all-digit
stdout), `setup` sets the default source, waits the fixed settle
interval, lists the sources, and succeeds iff the monitor source name
occurs in that listing's stdout; when it is absent the result is a
failure with the generic message. -/
theorem setup_monitor_verification (s : MState) (w : SetupWorld) (s2 : MState) (ok : Bool)
    (msg : String) (evs : List Ev) (h : setup s w = some (s2, (ok, msg), evs))
    (hrc : (runCmd w.loadRes).1 = 0) (hdig : pyIsDigit (runCmd w.loadRes).2.1 = true) :
    (ok = true ↔ pyIn monitor_name (runCmd w.srcRes).2.1 = true) ∧
    (ok = false → msg = "Failed to create virtual microphone") ∧
    ∃ pre, evs = pre ++ [Ev.setDefaultSource monitor_name, Ev.sleepMs 2000, Ev.listSources] := by
  obtain ⟨cevs, hc, hcase⟩ := setup_some s w s2 (ok, msg) evs h
  rcases hcase with ⟨hcond, hres, hevs⟩ | ⟨hrc2, hdig2, hevs, hver⟩
  · rcases hcond with hc1 | hc1
    · exact absurd hrc hc1
    · rw [hdig] at hc1
      cases hc1
  · refine ⟨?_, ?_, ⟨cevs ++ [Ev.sleepMs 2000] ++ [Ev.loadModule], by rw [hevs]; simp⟩⟩
    · rcases hver with ⟨hin, hres⟩ | ⟨hin, hres⟩
      · simp [(Prod.mk.inj hres).1, hin]
      · simp [(Prod.mk.inj hres).1, hin]
    · rcases hver with ⟨hin, hres⟩ | ⟨hin, hres⟩
      · intro hfalse
        rw [(Prod.mk.inj hres).1] at hfalse
        cases hfalse
      · intro _
        exact (Prod.mk.inj hres).2

/-- Witness for `setup_monitor_verification`: over `swNoMonitor` the
monitor never appears in the listing, so the concrete setup returns
failure; and the trace ends with set-default, settle sleep, listing. -/
theorem setup_monitor_verification_witness :
    (false = true ↔ pyIn monitor_name (runCmd swNoMonitor.srcRes).2.1 = true) ∧
    ∃ pre, swOkEvs = pre ++
      [Ev.setDefaultSource monitor_name, Ev.sleepMs 2000, Ev.listSources] := by
  have h := setup_monitor_verification sHeld swNoMonitor { initState with nextHandle := 6 }
    false "Failed to create virtual microphone" swOkEvs (by decide) (by decide) (by decide)
  exact ⟨h.1, h.2.2⟩

/-! ### Playback exclusivity -/

/-- When `stop()` and `release()` succeed and the exclusivity invariant
holds, `stop_playback` clears the player, frees its handle, and its
trace contains the stop and release calls on the old handle. -/
theorem stop_clean_spec (s : MState) (w : StopWorld) (hw : w.clean)
    (hl : s.livePlayers = s.vlc_player.toList) :
    (stop_playback s w).1 =
      { s with vlc_player := none, livePlayers := [], current_process := none } ∧
    ∀ h0, s.vlc_player = some h0 →
      Ev.vlcStop h0 ∈ (stop_playback s w).2 ∧ Ev.vlcRelease h0 ∈ (stop_playback s w).2 := by
  obtain ⟨hsr, hrr⟩ := hw
  rcases s with ⟨vi, vp, cp, lp, nh⟩
  dsimp only at hl
  subst hl
  cases vp <;> cases cp <;>
    simp [stop_playback, hsr, hrr] <;> split_ifs <;> simp

set_option maxHeartbeats 2000000 in
/-- Run on a cleared state, the `try:` block of `play_audio_vlc`
preserves the exclusivity invariant in every branch. -/
theorem play_try_body_inv (s1 : MState) (p : String) (w : PlayWorld)
    (hvp : s1.vlc_player = none) (hlp : s1.livePlayers = []) :
    playerInv (play_try_body s1 p w).1 := by
  rcases s1 with ⟨vi, vp, cp, lp, nh⟩
  dsimp only at hvp hlp
  subst hvp
  subst hlp
  unfold play_try_body
  cases vi <;> dsimp only <;> split_ifs <;>
    refine ⟨rfl, ?_⟩ <;> intro hh heq <;> simp_all [playerInv]

set_option maxHeartbeats 2000000 in
/-- Run on a cleared state, whenever the `try:` block reaches player
creation (no exception at instance or player creation), it leaves
exactly one live handle — the fresh one it created — whatever happens
afterwards (routing/loading exceptions or a failed `play()`). -/
theorem play_try_body_spec (s1 : MState) (p : String) (w : PlayWorld)
    (hvp : s1.vlc_player = none) (hlp : s1.livePlayers = [])
    (hr2 : w.raiseStep ≠ some 2)
    (hr1 : s1.vlc_instance = none → w.raiseStep ≠ some 1) :
    ∃ hnew, (play_try_body s1 p w).1.vlc_player = some hnew ∧
      (play_try_body s1 p w).1.livePlayers = [hnew] ∧
      s1.nextHandle ≤ hnew ∧
      Ev.newPlayer hnew ∈ (play_try_body s1 p w).2.2 ∧
      ∀ e ∈ (play_try_body s1 p w).2.2, e.isStopEv = false := by
  rcases s1 with ⟨vi, vp, cp, lp, nh⟩
  dsimp only at hvp hlp hr1
  subst hvp
  subst hlp
  unfold play_try_body
  cases vi
  case none =>
    dsimp only
    simp only [eq_self_iff_true, true_and]
    split_ifs <;>
      first
        | exact absurd (by assumption) (hr1 rfl)
        | exact absurd (by assumption) hr2
        | exact ⟨nh + 1, rfl, rfl, by omega, by simp, by simp [Ev.isStopEv]⟩
  case some iv =>
    dsimp only
    simp only [reduceCtorEq, false_and, if_false]
    split_ifs <;>
      first
        | exact absurd (by assumption) hr2
        | exact ⟨nh, rfl, rfl, by omega, by simp, by simp [Ev.isStopEv]⟩

/-- A `play_audio_vlc` call with a clean stop world preserves the
exclusivity invariant. -/
theorem play_preserves_inv (s : MState) (p : String) (w : PlayWorld)
    (hw : w.stopW.clean) (hs : playerInv s) :
    playerInv (play_audio_vlc s p w).1 := by
  by_cases hpt : w.pathExists = true
  · obtain ⟨hst, -⟩ := stop_clean_spec s w.stopW hw hs.1
    simp only [play_audio_vlc, hpt, Bool.not_true, Bool.false_eq_true, if_false]
    exact play_try_body_inv _ p w (by rw [hst]) (by rw [hst])
  · have hpf : w.pathExists = false := by simpa using hpt
    simp only [play_audio_vlc, hpf, Bool.not_false, if_true]
    exact hs

/-- A `play_audio_vlc` call that reaches player creation releases the
prior player first (its stop and release calls are in the stop segment
of the trace, before every body call) and ends with the fresh handle as
the only live player. -/
theorem play_creates (s : MState) (p : String) (w : PlayWorld)
    (hw : w.stopW.clean) (hs : playerInv s) (hpt : w.pathExists = true)
    (hr2 : w.raiseStep ≠ some 2)
    (hr1 : s.vlc_instance = none → w.raiseStep ≠ some 1) :
    ∃ hnew, (play_audio_vlc s p w).1.vlc_player = some hnew ∧
      (play_audio_vlc s p w).1.livePlayers = [hnew] ∧
      ∃ tr, (play_audio_vlc s p w).2.2 = (stop_playback s w.stopW).2 ++ tr ∧
        Ev.newPlayer hnew ∈ tr ∧ (∀ e ∈ tr, e.isStopEv = false) ∧
        ∀ h0, s.vlc_player = some h0 → h0 ≠ hnew ∧
          Ev.vlcStop h0 ∈ (stop_playback s w.stopW).2 ∧
          Ev.vlcRelease h0 ∈ (stop_playback s w.stopW).2 := by
  obtain ⟨hst, hstmem⟩ := stop_clean_spec s w.stopW hw hs.1
  obtain ⟨hnew, hb1, hb2, hb3, hb4, hb5⟩ :=
    play_try_body_spec (stop_playback s w.stopW).1 p w (by rw [hst]) (by rw [hst]) hr2
      (by rw [hst]; exact hr1)
  refine ⟨hnew, ?_, ?_,
    ⟨(play_try_body (stop_playback s w.stopW).1 p w).2.2, ?_, hb4, hb5, ?_⟩⟩
  · simp only [play_audio_vlc, hpt, Bool.not_true, Bool.false_eq_true, if_false]
    exact hb1
  · simp only [play_audio_vlc, hpt, Bool.not_true, Bool.false_eq_true, if_false]
    exact hb2
  · simp only [play_audio_vlc, hpt, Bool.not_true, Bool.false_eq_true, if_false]
  · intro h0 h0eq
    refine ⟨?_, (hstmem h0 h0eq).1, (hstmem h0 h0eq).2⟩
    have hlt := hs.2 h0 h0eq
    have hle := hb3
    rw [hst] at hle
    dsimp only at hle
    omega

/-- C1 (counterexample to the claim as stated): `Play("a.wav")`
succeeds and holds player 1; a second `Play("b.wav")` whose backend
`play()` returns `-1` fails, yet afterwards the single existing backend
handle is 2 — created by the failed second call — and handle 1 of the
most recent successful `Play` no longer exists. -/
theorem play_supersede_cex :
    (play_audio_vlc initState "a.wav" wOk).2.1.1 = true ∧
    (play_audio_vlc initState "a.wav" wOk).1.vlc_player = some 1 ∧
    (play_audio_vlc (play_audio_vlc initState "a.wav" wOk).1 "b.wav" wFail).2.1.1 = false ∧
    (play_audio_vlc (play_audio_vlc initState "a.wav" wOk).1 "b.wav" wFail).1.livePlayers = [2] ∧
    (play_audio_vlc (play_audio_vlc initState "a.wav" wOk).1 "b.wav" wFail).1.vlc_player = some 2 ∧
    1 ∉ (play_audio_vlc (play_audio_vlc initState "a.wav" wOk).1 "b.wav" wFail).1.livePlayers := by
  decide

/-- C1 (amended): provided `stop()`/`release()` succeed, (1) after any
sequence of `Play` calls from the initial state at most one backend
player handle exists — exactly the held one, if any — and (2) any
`Play` with an existing path that reaches player creation first stops
and releases the prior player (its stop/release calls precede the whole
body trace) and leaves its freshly created handle as the single live
player, whether or not the playback then starts successfully. -/
theorem play_exclusive_amended :
    (∀ calls : List (String × PlayWorld),
      (∀ c ∈ calls, c.2.stopW.clean) → playerInv (runPlays initState calls).1) ∧
    (∀ (s : MState) (p : String) (w : PlayWorld),
      w.stopW.clean → playerInv s → w.pathExists = true → w.raiseStep ≠ some 2 →
      (s.vlc_instance = none → w.raiseStep ≠ some 1) →
      ∃ hnew, (play_audio_vlc s p w).1.vlc_player = some hnew ∧
        (play_audio_vlc s p w).1.livePlayers = [hnew] ∧
        ∃ tr, (play_audio_vlc s p w).2.2 = (stop_playback s w.stopW).2 ++ tr ∧
          Ev.newPlayer hnew ∈ tr ∧ (∀ e ∈ tr, e.isStopEv = false) ∧
          ∀ h0, s.vlc_player = some h0 → h0 ≠ hnew ∧
            Ev.vlcStop h0 ∈ (stop_playback s w.stopW).2 ∧
            Ev.vlcRelease h0 ∈ (stop_playback s w.stopW).2) := by
  constructor
  · have H : ∀ (cs : List (String × PlayWorld)) (s : MState), playerInv s →
        (∀ c ∈ cs, c.2.stopW.clean) → playerInv (runPlays s cs).1 := by
      intro cs
      induction cs with
      | nil => intro s hs _; exact hs
      | cons c rest ih =>
        rcases c with ⟨pp, ww⟩
        intro s hs hc
        dsimp only [runPlays]
        exact ih _ (play_preserves_inv s pp ww (hc ⟨pp, ww⟩ (by simp)) hs)
          (fun d hd => hc d (by simp [hd]))
    intro calls hcalls
    exact H calls initState ⟨rfl, fun h hh => by cases hh⟩ hcalls
  · intro s p w hw hs hpt hr2 hr1
    exact play_creates s p w hw hs hpt hr2 hr1

/-- Witness for `play_exclusive_amended`: the invariant after the
concrete two-call sequence of `play_supersede_cex`, and the
creation property for a concrete failing `Play` from the initial
state. -/
theorem play_exclusive_amended_witness :
    playerInv (runPlays initState [("a.wav", wOk), ("b.wav", wFail)]).1 ∧
    ∃ hnew, (play_audio_vlc initState "b.wav" wFail).1.vlc_player = some hnew ∧
      (play_audio_vlc initState "b.wav" wFail).1.livePlayers = [hnew] ∧
      ∃ tr, (play_audio_vlc initState "b.wav" wFail).2.2 =
          (stop_playback initState wFail.stopW).2 ++ tr ∧
        Ev.newPlayer hnew ∈ tr ∧ (∀ e ∈ tr, e.isStopEv = false) ∧
        ∀ h0, initState.vlc_player = some h0 → h0 ≠ hnew ∧
          Ev.vlcStop h0 ∈ (stop_playback initState wFail.stopW).2 ∧
          Ev.vlcRelease h0 ∈ (stop_playback initState wFail.stopW).2 := by
  constructor
  · exact play_exclusive_amended.1 [("a.wav", wOk), ("b.wav", wFail)] (by decide)
  · exact play_exclusive_amended.2 initState "b.wav" wFail (by decide)
      ⟨rfl, fun h hh => by cases hh⟩ rfl (by decide) (fun _ => by decide)

end VirtualMic
